import Mathlib

/-!
# Verification of the zim-library-manager download orchestration subsystem

Shallow embedding of the download lifecycle manager from
`src/services/downloads.ts` (spawn/pause/resume/cancel/exit-reconciliation),
the disk admission check from `src/services/disk.ts`, and the mirror URL
selection logic of `resolveMeta4Url`, over the `downloads` / `local_zims`
tables of `src/db/schema.ts`.

Database effects become explicit state passing on `SysState`; the in-memory
`activeProcesses : Map<number, ChildProcess>` becomes the list of download
ids currently holding a live handle; network and filesystem reads
(`fetch`, `getDiskSpace`, `stat`) become fields of an `Env` record or
explicit parameters.  JavaScript numbers are modelled as `Nat` (all values
involved are non-negative integers) except the progress percentage, where
the floating-point division is modelled as exact rational division.
-/

namespace ZimLib

/-- Download status, the `status` enum of the `downloads` table in
`src/db/schema.ts`: `["queued", "downloading", "paused", "completed", "failed"]`. -/
inductive Status
  | queued
  | downloading
  | paused
  | completed
  | failed
deriving DecidableEq

/-- One row of the `downloads` table (`src/db/schema.ts`).  Timestamps are
modelled as `Option Nat` (milliseconds); nullable columns are `Option`. -/
structure DownloadRow where
  id : Nat
  bookId : Option String
  status : Status
  filePath : Option String
  bytesDownloaded : Option Nat
  totalBytes : Option Nat
  pid : Option Nat
  startedAt : Option Nat
  completedAt : Option Nat
  error : Option String
deriving DecidableEq

/-- One row of the `local_zims` table (`src/db/schema.ts`); only the columns
written by the download-completion handler are relevant here. -/
structure LocalZim where
  id : Nat
  filePath : String
  fileName : String
  fileSize : Option Nat
  bookId : Option String
  catalogDate : Option String
  hasUpdate : Bool
  discoveredAt : Option Nat
  lastChecked : Option Nat
deriving DecidableEq

/-- The mutable state of the manager: the persisted `downloads` and
`local_zims` tables (in insertion order, with autoincrement counters), the
in-memory `activeProcesses` table (as the list of download ids holding a
live process handle), and an instrumentation counter of how many times
`spawn` has been invoked. -/
@[ext]
structure SysState where
  rows : List DownloadRow
  zims : List LocalZim
  nextId : Nat
  nextZimId : Nat
  handles : List Nat
  spawnCount : Nat
deriving DecidableEq

/-- A catalog book as read by `startDownload`: only `id`, `url`, `size`
(declared size in KB, nullable) and `date` are consulted; the remaining
columns of `catalog_books` are never read by the download subsystem. -/
structure CatalogBook where
  id : String
  url : Option String
  size : Option Nat
  date : Option String
deriving DecidableEq

/-- Read-only environment of a `startDownload` call: the catalog contents
(`getBookById`), the configured download folder (`getSetting`), the free
bytes reported by `getDiskSpace`, the meta4 resolution outcome
(`resolveMeta4Url`, `none` modelling a fetch/parse failure), the OS-assigned
pid and the current time. -/
structure Env where
  catalog : List CatalogBook
  downloadFolder : String
  available : Nat
  resolve : String → Option (String × String)
  pid : Nat
  now : Nat

/-- Function `getBookById` from `src/services/catalog.ts`: first catalog row whose
`id` matches, or `null`. -/
def getBookById (env : Env) (bookId : String) : Option CatalogBook :=
  env.catalog.find? (fun b => b.id == bookId)

/-- Function `hasEnoughSpace` from `src/services/disk.ts`:
`available >= required + buffer` with a fixed 1 GB buffer. -/
def hasEnoughSpace (available required : Nat) : Bool :=
  -- Require at least 1GB buffer beyond the file size
  let buffer := 1024 * 1024 * 1024
  decide (available ≥ required + buffer)

/-! ## Mirror URL selection (`resolveMeta4Url`)

The `<url>` content of a parsed meta4 file is either a bare string, an
array of entries (each a bare string or an object with text and an optional
`priority` attribute), or a single object.  `parseInt(u["@_priority"] ?? "99", 10)`
is modelled as `.getD 99` on the already-parsed attribute value. -/

/-- One element of the `file.url` array of a parsed meta4 document. -/
inductive UrlEntry
  | plain (s : String)
  | tagged (text : String) (priVal : Option Int)
deriving DecidableEq

/-- The `file.url` field shapes handled by `resolveMeta4Url`. -/
inductive FileUrl
  | single (s : String)
  | multi (entries : List UrlEntry)
  | obj (text : String)
deriving DecidableEq

/-- The `url` component built in the array branch of `resolveMeta4Url`. -/
def entryUrl : UrlEntry → String
  | .plain s => s
  | .tagged t _ => t

/-- The `priority` component built in the array branch of `resolveMeta4Url`:
a bare string gets 99, an object gets its parsed attribute defaulted to 99. -/
def entryPri : UrlEntry → Int
  | .plain _ => 99
  | .tagged _ p => p.getD 99

/-- Stable insertion into an ascending list, keeping an equal-key element
after those already present — together with `sortByPri` this reproduces the
output of JavaScript's stable `Array.prototype.sort((a, b) => a.priority - b.priority)`. -/
def insertByPri (x : String × Int) : List (String × Int) → List (String × Int)
  | [] => [x]
  | y :: ys => if x.2 ≤ y.2 then x :: y :: ys else y :: insertByPri x ys

/-- Stable ascending sort by priority (a stable sort's output is uniquely
determined by the key order, so this equals the JavaScript sort's result). -/
def sortByPri : List (String × Int) → List (String × Int)
  | [] => []
  | x :: xs => insertByPri x (sortByPri xs)

/-- The URL-selection logic of `resolveMeta4Url` (`src/services/downloads.ts`):
a bare string is returned unchanged; an array is mapped to (url, priority)
pairs, sorted ascending by priority, and the first element is taken
(`urls[0]` on an empty array is a crash, modelled as `none`); a single
object yields its text. -/
def selectUrl : FileUrl → Option String
  | .single s => some s
  | .multi entries =>
      let urls := entries.map (fun u => (entryUrl u, entryPri u))
      (sortByPri urls).head?.map Prod.fst
  | .obj t => some t

/-- Modelled from the spec: the selection rule as §4.2 words it — sort
ascending by declared priority with a URL *lacking* a priority attribute
sorting last (lowest preference) — for comparison with `selectUrl`.  The
key is the declared `Option Int` priority, `none` ordered after every
declared value. -/
def specPriLE : Option Int → Option Int → Bool
  | _, none => true
  | none, some _ => false
  | some a, some b => decide (a ≤ b)

/-- Declared (unparsed-default) priority of an entry: a bare string has no
priority attribute. -/
def declaredPri : UrlEntry → Option Int
  | .plain _ => none
  | .tagged _ p => p

/-- Stable insertion for the spec-side order `specPriLE`. -/
def specInsert (x : String × Option Int) :
    List (String × Option Int) → List (String × Option Int)
  | [] => [x]
  | y :: ys => if specPriLE x.2 y.2 then x :: y :: ys else y :: specInsert x ys

/-- Stable sort for the spec-side order `specPriLE`. -/
def specSort : List (String × Option Int) → List (String × Option Int)
  | [] => []
  | x :: xs => specInsert x (specSort xs)

/-- Modelled from the spec: full spec-side selection — single URL returned
unchanged, several sorted by `specPriLE` (missing priority last) and the
first taken. -/
def specSelectUrl : FileUrl → Option String
  | .single s => some s
  | .multi entries =>
      let urls := entries.map (fun u => (entryUrl u, declaredPri u))
      (specSort urls).head?.map Prod.fst
  | .obj t => some t

/-- First element of the list attaining the minimal priority — the
characterization of what head-of-stable-ascending-sort returns. -/
def firstMinBy : List (String × Int) → Option (String × Int)
  | [] => none
  | x :: xs =>
      match firstMinBy xs with
      | none => some x
      | some m => if x.2 ≤ m.2 then some x else some m

/-! ## Download State Store operations -/

/-- Query `db.update(downloads).set(...).where(eq(downloads.id, id))`: apply `f`
to every row whose `id` matches (ids are the autoincrement primary key). -/
def updateRows (rows : List DownloadRow) (id : Nat) (f : DownloadRow → DownloadRow) :
    List DownloadRow :=
  rows.map (fun r => if r.id = id then f r else r)

/-- Query `db.select().from(downloads).where(eq(downloads.id, id)).limit(1)`. -/
def findById (rows : List DownloadRow) (id : Nat) : Option DownloadRow :=
  rows.find? (fun r => r.id == id)

/-- Query `db.select().from(downloads).where(eq(downloads.bookId, bookId)).limit(1)`. -/
def findByBookId (rows : List DownloadRow) (bookId : String) : Option DownloadRow :=
  rows.find? (fun r => r.bookId == some bookId)

/-- The state effect of `spawnWget` (`src/services/downloads.ts`): spawn the
wget process (counted by `spawnCount`), register the handle under the
download id (`activeProcesses.set`, replacing any previous entry for that
id), and record the pid in the row.  The stderr progress sampler and the
close/error handlers it installs are modelled separately as events
(`onWgetClose`, `onWgetError`). -/
def spawnWget (st : SysState) (downloadId : Nat) (pid : Nat) : SysState :=
  { st with
    handles := downloadId :: st.handles.filter (fun h => h ≠ downloadId),
    rows := updateRows st.rows downloadId (fun r => { r with pid := some pid }),
    spawnCount := st.spawnCount + 1 }

/-- The distinguishable failures thrown by `startDownload` (and the
`Failed to fetch meta4` error thrown inside `resolveMeta4Url`). -/
inductive StartError
  | bookNotFound (bookId : String)
  | noUrl (bookId : String)
  | insufficientSpace (required available : Nat)
  | metadataFetchFailed (meta4Url : String)
  | alreadyInProgress (bookId : String)
deriving DecidableEq

/-- Function `startDownload` (`src/services/downloads.ts`), in the source's order:
look up the book (`NotFound`), require a url (`NoUrl`), compute
`requiredBytes = (book.size ?? 0) * 1024`, run the disk admission check
(`InsufficientSpace` with both figures), resolve the meta4 url, build
`filePath = join(downloadFolder, fileName)`, reject if an existing row for
this `bookId` has status `"downloading"`, otherwise update the existing row
(status `downloading`, `startedAt` now, `error` cleared — `filePath` and
`totalBytes` are *not* rewritten) or insert a fresh row, then spawn wget.
The source re-reads the updated row by its primary key `id` after the
update, which returns exactly the updated row; the returned record predates
the asynchronous pid write. -/
def startDownload (env : Env) (st : SysState) (bookId : String) :
    Except StartError (SysState × DownloadRow) :=
  match getBookById env bookId with
  | none => .error (.bookNotFound bookId)
  | some book =>
    match book.url with
    | none => .error (.noUrl bookId)
    | some meta4Url =>
      let requiredBytes := book.size.getD 0 * 1024
      if hasEnoughSpace env.available requiredBytes then
        match env.resolve meta4Url with
        | none => .error (.metadataFetchFailed meta4Url)
        | some (_downloadUrl, fileName) =>
          let filePath := env.downloadFolder ++ "/" ++ fileName
          match findByBookId st.rows bookId with
          | some existing =>
            if existing.status = .downloading then
              .error (.alreadyInProgress bookId)
            else
              let markResumed : DownloadRow → DownloadRow := fun r =>
                { r with status := Status.downloading, startedAt := some env.now,
                         error := none }
              let updated := markResumed existing
              let st' := { st with rows := updateRows st.rows existing.id markResumed }
              .ok (spawnWget st' updated.id env.pid, updated)
          | none =>
            let record : DownloadRow :=
              { id := st.nextId, bookId := some bookId, status := .downloading,
                filePath := some filePath, bytesDownloaded := some 0,
                totalBytes := some requiredBytes, pid := none,
                startedAt := some env.now, completedAt := none, error := none }
            let st' := { st with rows := st.rows ++ [record], nextId := st.nextId + 1 }
            .ok (spawnWget st' record.id env.pid, record)
      else .error (.insufficientSpace requiredBytes env.available)

/-- Function `pauseDownload`: only when a live handle with a pid is registered, send
SIGSTOP (freezing, not terminating — the handle stays registered) and set
status `paused`; otherwise a silent no-op. -/
def pauseDownload (st : SysState) (downloadId : Nat) : SysState :=
  if st.handles.contains downloadId then
    let rows := updateRows st.rows downloadId (fun r => { r with status := Status.paused })
    { st with rows := rows }
  else st

/-- Failures of `resumeDownload`: the id is unknown, or the fallback
`startDownload` threw. -/
inductive ResumeError
  | notFound (downloadId : Nat)
  | start (e : StartError)
deriving DecidableEq

/-- Function `resumeDownload`: unknown id throws; with a live handle, send SIGCONT
and set status `downloading`; with no handle but a `bookId`, fall back to
`startDownload` (wget `-c` resumes the partial file); with neither,
silently return. -/
def resumeDownload (env : Env) (st : SysState) (downloadId : Nat) :
    Except ResumeError SysState :=
  match findById st.rows downloadId with
  | none => .error (.notFound downloadId)
  | some download =>
    if st.handles.contains downloadId then
      let rows := updateRows st.rows downloadId (fun r => { r with status := Status.downloading })
      .ok { st with rows := rows }
    else
      match download.bookId with
      | some bid =>
        match startDownload env st bid with
        | .ok (st', _) => .ok st'
        | .error e => .error (.start e)
      | none => .ok st

/-- Function `cancelDownload`: if a handle is registered, send SIGTERM and delete it
from the registry immediately; then unconditionally mark the row `failed`
with error `"Cancelled by user"` and clear the pid.  Never throws. -/
def cancelDownload (st : SysState) (downloadId : Nat) : SysState :=
  let st1 :=
    if st.handles.contains downloadId then
      { st with handles := st.handles.filter (fun h => h ≠ downloadId) }
    else st
  let markCancelled : DownloadRow → DownloadRow := fun r =>
    { r with status := Status.failed, error := some "Cancelled by user", pid := none }
  { st1 with rows := updateRows st1.rows downloadId markCancelled }

/-- The closure data `spawnWget` captures for its exit handler. -/
structure BookInfo where
  bookId : String
  catalogDate : Option String
  fileName : String
deriving DecidableEq

/-- Node's close event code rendered into the template string
`` `wget exited with code ${code}` `` (`null` when killed by a signal). -/
def exitCodeText : Option Int → String
  | some c => toString c
  | none => "null"

/-- The `close` handler installed by `spawnWget`: deregister the handle;
on exit code 0, mark the row `completed` (final size from a re-stat,
falling back to the spawn-time `totalBytes`), set `completedAt`, clear the
pid, then upsert the `local_zims` row for the output path; on any other
code, re-read the row and mark it `failed` with the exit-code message
*unless* its status is already `paused` (the exit raced this supervisor's
own pause signal), in which case nothing is written. -/
def onWgetClose (st : SysState) (downloadId : Nat) (code : Option Int)
    (outputPath : String) (totalBytes : Nat) (bookInfo : BookInfo)
    (statSize : Option Nat) (now : Nat) : SysState :=
  let st0 := { st with handles := st.handles.filter (fun h => h ≠ downloadId) }
  if code = some 0 then
    let markDone : DownloadRow → DownloadRow := fun r =>
      { r with status := Status.completed,
               bytesDownloaded := some (statSize.getD totalBytes),
               completedAt := some now, pid := none }
    let st1 := { st0 with rows := updateRows st0.rows downloadId markDone }
    match st1.zims.find? (fun z => z.filePath == outputPath) with
    | some z =>
      let refresh : LocalZim → LocalZim := fun w =>
        if w.id = z.id then
          { w with fileSize := statSize, bookId := some bookInfo.bookId,
                   catalogDate := bookInfo.catalogDate, hasUpdate := false,
                   lastChecked := some now }
        else w
      { st1 with zims := st1.zims.map refresh }
    | none =>
      let fresh : LocalZim :=
        { id := st1.nextZimId, filePath := outputPath,
          fileName := bookInfo.fileName, fileSize := statSize,
          bookId := some bookInfo.bookId, catalogDate := bookInfo.catalogDate,
          hasUpdate := false, discoveredAt := some now, lastChecked := some now }
      { st1 with zims := st1.zims ++ [fresh], nextZimId := st1.nextZimId + 1 }
  else
    let isPaused :=
      match findById st0.rows downloadId with
      | some row => decide (row.status = Status.paused)
      | none => false
    if isPaused then st0
    else
      let markFail : DownloadRow → DownloadRow := fun r =>
        { r with status := Status.failed,
                 error := some ("wget exited with code " ++ exitCodeText code),
                 pid := none }
      { st0 with rows := updateRows st0.rows downloadId markFail }

/-- The `error` handler installed by `spawnWget`: deregister the handle and
unconditionally mark the row `failed` with the error's message. -/
def onWgetError (st : SysState) (downloadId : Nat) (message : String) : SysState :=
  let markErr : DownloadRow → DownloadRow := fun r =>
    { r with status := Status.failed, error := some message, pid := none }
  { st with
    handles := st.handles.filter (fun h => h ≠ downloadId),
    rows := updateRows st.rows downloadId markErr }

/-- The progress report returned by `getDownloadProgress`; the JavaScript
floating-point `percentage` is modelled as an exact rational. -/
structure DownloadProgress where
  id : Nat
  bookId : String
  status : Status
  bytesDownloaded : Nat
  totalBytes : Nat
  percentage : ℚ
  filePath : String
  error : Option String
deriving DecidableEq

/-- Function `getDownloadProgress`: `null` for an unknown id; otherwise report the
stored bytes (refreshed from a live `stat` of the file while status is
`downloading`, keeping the stored value on a stat error), with
`percentage = totalBytes > 0 ? bytesDownloaded / totalBytes * 100 : 0`.
`fileSize` models `stat(filePath)` (`none` = the file does not exist). -/
def getDownloadProgress (fileSize : String → Option Nat) (st : SysState)
    (downloadId : Nat) : Option DownloadProgress :=
  match findById st.rows downloadId with
  | none => none
  | some d =>
    let stored := d.bytesDownloaded.getD 0
    let bytesDownloaded :=
      if d.status = Status.downloading then
        match d.filePath with
        | some fp => (fileSize fp).getD stored
        | none => stored
      else stored
    let totalBytes := d.totalBytes.getD 0
    let percentage : ℚ :=
      if totalBytes > 0 then (bytesDownloaded : ℚ) / (totalBytes : ℚ) * 100 else 0
    some { id := d.id, bookId := d.bookId.getD "", status := d.status,
           bytesDownloaded := bytesDownloaded, totalBytes := totalBytes,
           percentage := percentage, filePath := d.filePath.getD "",
           error := d.error }

/-! ## Helper lemmas about the row store -/

theorem updateRows_length (rows : List DownloadRow) (id : Nat)
    (f : DownloadRow → DownloadRow) :
    (updateRows rows id f).length = rows.length := by
  simp [updateRows]

theorem findById_updateRows (rows : List DownloadRow) (id : Nat)
    (f : DownloadRow → DownloadRow) (hf : ∀ r, (f r).id = r.id) :
    findById (updateRows rows id f) id = (findById rows id).map f := by
  induction rows with
  | nil => rfl
  | cons r rs ih =>
    by_cases h : r.id = id
    · simp [findById, updateRows, List.find?_cons, h, hf r] at *
    · simp [findById, updateRows, List.find?_cons, h] at *
      exact ih

theorem updateRows_comp (rows : List DownloadRow) (id : Nat)
    (f g : DownloadRow → DownloadRow) (hf : ∀ r, (f r).id = r.id) :
    updateRows (updateRows rows id f) id g
      = updateRows rows id (fun r => g (f r)) := by
  induction rows with
  | nil => rfl
  | cons r rs ih =>
    by_cases h : r.id = id
    · simp [updateRows, h, hf r] at *
      exact ih
    · simp [updateRows, h] at *
      exact ih

theorem map_bookId_updateRows (rows : List DownloadRow) (id : Nat)
    (f : DownloadRow → DownloadRow) (hf : ∀ r, (f r).bookId = r.bookId) :
    (updateRows rows id f).map DownloadRow.bookId = rows.map DownloadRow.bookId := by
  induction rows with
  | nil => rfl
  | cons r rs ih =>
    simp only [updateRows, List.map_cons]
    refine congrArg₂ List.cons ?_ ih
    by_cases h : r.id = id <;> simp [h, hf r]

theorem contains_filter_ne (l : List Nat) (id : Nat) :
    (l.filter (fun h => h ≠ id)).contains id = false := by
  rw [Bool.eq_false_iff]
  intro hc
  simp [List.contains, List.elem_iff] at hc

/-! ## Shared example fixtures -/

/-- Example catalog book `b1` used by several concrete runs. -/
def exBook1 : CatalogBook :=
  { id := "b1", url := some "u1", size := some 1000, date := some "2024-01-01" }

/-- Example catalog book `b2`, a different book whose meta4 resolves to the
same file name as `b1`'s. -/
def exBook2 : CatalogBook :=
  { id := "b2", url := some "u2", size := some 1000, date := none }

/-- Example environment: both books in the catalog, plenty of disk, and a
resolver sending both meta4 urls to the same file name `same.zim`. -/
def exEnv : Env :=
  { catalog := [exBook1, exBook2], downloadFolder := "/dl",
    available := 3000000000,
    resolve := fun u =>
      if u == "u1" then some ("http://mirror-a/x.zim", "same.zim")
      else if u == "u2" then some ("http://mirror-b/y.zim", "same.zim")
      else none,
    pid := 42, now := 5 }

/-- Empty store. -/
def exStEmpty : SysState :=
  { rows := [], zims := [], nextId := 1, nextZimId := 1, handles := [],
    spawnCount := 0 }

/-- A persisted row for book `b1` in status `paused`. -/
def exRowPaused : DownloadRow :=
  { id := 1, bookId := some "b1", status := .paused,
    filePath := some "/dl/same.zim", bytesDownloaded := some 7,
    totalBytes := some 1024000, pid := some 42, startedAt := some 1,
    completedAt := none, error := none }

/-- Store holding the paused `b1` row with its live handle still
registered in the in-memory table. -/
def exStPaused : SysState :=
  { rows := [exRowPaused], zims := [], nextId := 2, nextZimId := 1,
    handles := [1], spawnCount := 1 }

/-- The same row while `downloading`. -/
def exRowDownloading : DownloadRow := { exRowPaused with status := .downloading }

/-- Store holding the `downloading` `b1` row with its live handle. -/
def exStDownloading : SysState := { exStPaused with rows := [exRowDownloading] }

/-! ## C1 — exit-code 0 reconciliation versus a `paused` status -/

/-- C1 counterexample: with the persisted status `paused` at the moment the
process exits with code 0, the close handler of `spawnWget` *does* overwrite
the status to `completed` — the zero-exit branch never consults the current
status (only the non-zero branch does), refuting the claim that a
force-paused run is not transitioned to `completed`. -/
theorem onWgetClose_zero_overwrites_paused_cex :
    exRowPaused.status = Status.paused
    ∧ (findById (onWgetClose exStPaused 1 (some 0) "/dl/same.zim" 1024000
        ⟨"b1", some "2024-01-01", "same.zim"⟩ (some 999) 9).rows 1).map
        DownloadRow.status = some Status.completed :=
  ⟨rfl, rfl⟩

/-- C1 amended: on exit code 0 the reconciliation in `spawnWget`'s close
handler unconditionally marks the row `completed` (with the re-stat size,
`completedAt` set and pid cleared) regardless of the persisted status —
including a status of `paused`; only the non-zero branch preserves
`paused`. -/
theorem onWgetClose_zero_always_completes (st : SysState) (downloadId : Nat)
    (row : DownloadRow) (outputPath : String) (totalBytes : Nat)
    (bookInfo : BookInfo) (statSize : Option Nat) (now : Nat)
    (hrow : findById st.rows downloadId = some row) :
    findById (onWgetClose st downloadId (some 0) outputPath totalBytes
        bookInfo statSize now).rows downloadId
      = some { row with
               status := Status.completed,
               bytesDownloaded := some (statSize.getD totalBytes),
               completedAt := some now, pid := none } := by
  have hrows : (onWgetClose st downloadId (some 0) outputPath totalBytes
      bookInfo statSize now).rows
        = updateRows st.rows downloadId (fun r =>
            { r with status := Status.completed,
                     bytesDownloaded := some (statSize.getD totalBytes),
                     completedAt := some now, pid := none }) := by
    cases hfind : st.zims.find? (fun z => z.filePath == outputPath) <;>
      simp [onWgetClose, hfind]
  rw [hrows, findById_updateRows, hrow]
  · rfl
  · intro r
    rfl

/-- C1 amended, witness at a concrete paused row. -/
theorem onWgetClose_zero_always_completes_witness :
    findById (onWgetClose exStPaused 1 (some 0) "/dl/same.zim" 1024000
        ⟨"b1", some "2024-01-01", "same.zim"⟩ (some 999) 9).rows 1
      = some { exRowPaused with
               status := Status.completed,
               bytesDownloaded := some 999, completedAt := some 9,
               pid := none } :=
  onWgetClose_zero_always_completes exStPaused 1 exRowPaused "/dl/same.zim"
    1024000 ⟨"b1", some "2024-01-01", "same.zim"⟩ (some 999) 9 rfl

/-! ## C3 — disk admission rule -/

/-- C3: the admission check admits exactly when
`available ≥ required + 1073741824` (1 GiB margin); the two concrete
figures from the spec behave as stated, and `startDownload` refuses with
the `InsufficientSpace` error carrying both figures whenever the check
fails for a book that exists and has a url. -/
theorem hasEnoughSpace_spec :
    (∀ available required : Nat,
        hasEnoughSpace available required = true
          ↔ required + 1073741824 ≤ available)
    ∧ hasEnoughSpace 2050000000 1000000000 = false
    ∧ hasEnoughSpace 3000000000 1000000000 = true
    ∧ (∀ env st bookId book meta4Url,
        getBookById env bookId = some book →
        book.url = some meta4Url →
        hasEnoughSpace env.available (book.size.getD 0 * 1024) = false →
        startDownload env st bookId
          = .error (.insufficientSpace (book.size.getD 0 * 1024)
              env.available)) := by
  refine ⟨fun a r => ?_, by decide, by decide, fun env st bookId book meta4Url hb hu hs => ?_⟩
  · simp [hasEnoughSpace]
  · unfold startDownload
    simp only [hb, hu, hs, Bool.false_eq_true, if_false]

/-- An environment with only 2000 free bytes, for the C3 witness. -/
def exEnvTight : Env :=
  { catalog := [exBook1], downloadFolder := "/dl", available := 2000,
    resolve := fun _ => none, pid := 42, now := 5 }

/-- C3 witness: a 1 000 000-KB book against 2000 free bytes is refused. -/
theorem hasEnoughSpace_spec_witness :
    startDownload exEnvTight exStEmpty "b1"
      = .error (.insufficientSpace 1024000 2000) :=
  hasEnoughSpace_spec.2.2.2 exEnvTight exStEmpty "b1" exBook1 "u1" rfl rfl
    (by decide)

/-! ## C9 — no division by a zero `totalBytes` -/

/-- C9: for an existing row whose `totalBytes` is `0` or null, the progress
report exists and its percentage is exactly `0` — the division is guarded
by `totalBytes > 0`. -/
theorem getDownloadProgress_zero_total (fileSize : String → Option Nat)
    (st : SysState) (downloadId : Nat) (row : DownloadRow)
    (hrow : findById st.rows downloadId = some row)
    (htot : row.totalBytes = none ∨ row.totalBytes = some 0) :
    ∃ p, getDownloadProgress fileSize st downloadId = some p
      ∧ p.totalBytes = 0 ∧ p.percentage = 0 := by
  unfold getDownloadProgress
  rw [hrow]
  have h0 : row.totalBytes.getD 0 = 0 := by
    rcases htot with h | h <;> simp [h]
  refine ⟨_, rfl, ?_, ?_⟩ <;> simp [h0]

/-- C9 witness at a concrete paused row with `totalBytes = 0`. -/
theorem getDownloadProgress_zero_total_witness :
    ∃ p, getDownloadProgress (fun _ => some 55)
        { exStPaused with rows := [{ exRowPaused with totalBytes := some 0 }] } 1
        = some p ∧ p.totalBytes = 0 ∧ p.percentage = 0 :=
  getDownloadProgress_zero_total (fun _ => some 55)
    { exStPaused with rows := [{ exRowPaused with totalBytes := some 0 }] } 1
    { exRowPaused with totalBytes := some 0 } rfl (Or.inr rfl)

/-! ## C6 — cancel is total and idempotent -/

/-- C6: `cancelDownload` is a total function (never throws) that
unconditionally marks the row `failed` with error `"Cancelled by user"` and
clears the pid, deregistering any live handle; applying it twice is
literally the same state as applying it once, so the second call leaves
status `failed` with the same error. -/
theorem cancelDownload_rows (st : SysState) (downloadId : Nat) :
    (cancelDownload st downloadId).rows
      = updateRows st.rows downloadId (fun r =>
          { r with
            status := Status.failed, error := some "Cancelled by user",
            pid := none }) := by
  by_cases h : downloadId ∈ st.handles <;> simp [cancelDownload, h]

theorem cancelDownload_handles (st : SysState) (downloadId : Nat) :
    (cancelDownload st downloadId).handles
      = if st.handles.contains downloadId = true
        then st.handles.filter (fun h => h ≠ downloadId)
        else st.handles := by
  by_cases h : downloadId ∈ st.handles <;> simp [cancelDownload, h]

theorem cancelDownload_rest (st : SysState) (downloadId : Nat) :
    (cancelDownload st downloadId).zims = st.zims
    ∧ (cancelDownload st downloadId).nextId = st.nextId
    ∧ (cancelDownload st downloadId).nextZimId = st.nextZimId
    ∧ (cancelDownload st downloadId).spawnCount = st.spawnCount := by
  by_cases h : downloadId ∈ st.handles <;> simp [cancelDownload, h]

theorem cancelDownload_handles_contains (st : SysState) (downloadId : Nat) :
    (cancelDownload st downloadId).handles.contains downloadId = false := by
  rw [cancelDownload_handles]
  by_cases h : st.handles.contains downloadId = true
  · rw [if_pos h]
    exact contains_filter_ne st.handles downloadId
  · rw [if_neg h]
    simpa using h

theorem cancelDownload_idempotent (st : SysState) (downloadId : Nat) :
    cancelDownload (cancelDownload st downloadId) downloadId
      = cancelDownload st downloadId
    ∧ (cancelDownload st downloadId).handles.contains downloadId = false
    ∧ ∀ row, findById st.rows downloadId = some row →
        findById (cancelDownload st downloadId).rows downloadId
          = some { row with
                   status := Status.failed,
                   error := some "Cancelled by user", pid := none } := by
  refine ⟨?_, cancelDownload_handles_contains st downloadId, fun row hrow => ?_⟩
  · apply SysState.ext
    · rw [cancelDownload_rows, cancelDownload_rows, updateRows_comp]
      intro r
      rfl
    · rw [(cancelDownload_rest _ _).1, (cancelDownload_rest _ _).1]
    · rw [(cancelDownload_rest _ _).2.1, (cancelDownload_rest _ _).2.1]
    · rw [(cancelDownload_rest _ _).2.2.1, (cancelDownload_rest _ _).2.2.1]
    · rw [cancelDownload_handles (cancelDownload st downloadId),
        if_neg (by simpa using cancelDownload_handles_contains st downloadId)]
    · rw [(cancelDownload_rest _ _).2.2.2, (cancelDownload_rest _ _).2.2.2]
  · rw [cancelDownload_rows, findById_updateRows, hrow]
    · rfl
    · intro r
      rfl

/-- C6 witness at a concrete paused row with a live handle. -/
theorem cancelDownload_idempotent_witness :
    findById (cancelDownload exStPaused 1).rows 1
      = some { exRowPaused with
               status := Status.failed,
               error := some "Cancelled by user", pid := none } :=
  (cancelDownload_idempotent exStPaused 1).2.2 exRowPaused rfl

/-! ## C8 — exit and error reconciliation -/

/-- C8: for an existing row and a non-zero (or signal) exit, the close
handler leaves the row `paused` exactly when its persisted status at exit
time is `paused` (in that case the row is not written at all); otherwise it
marks the row `failed` with the exit-code message and clears the pid.  The
spawn/runtime error handler always marks the row `failed` with the error's
message, whatever the current status. -/
theorem exit_reconciliation (st : SysState) (downloadId : Nat)
    (row : DownloadRow) (code : Option Int) (outputPath : String)
    (totalBytes : Nat) (bookInfo : BookInfo) (statSize : Option Nat)
    (now : Nat)
    (hrow : findById st.rows downloadId = some row)
    (hcode : code ≠ some 0) :
    (row.status = Status.paused →
      findById (onWgetClose st downloadId code outputPath totalBytes
          bookInfo statSize now).rows downloadId = some row)
    ∧ ((findById (onWgetClose st downloadId code outputPath totalBytes
          bookInfo statSize now).rows downloadId).map DownloadRow.status
        = some Status.paused ↔ row.status = Status.paused)
    ∧ (row.status ≠ Status.paused →
        findById (onWgetClose st downloadId code outputPath totalBytes
            bookInfo statSize now).rows downloadId
          = some { row with
                   status := Status.failed,
                   error := some ("wget exited with code " ++ exitCodeText code),
                   pid := none })
    ∧ (∀ message, findById (onWgetError st downloadId message).rows downloadId
        = some { row with
                 status := Status.failed, error := some message,
                 pid := none }) := by
  have herr : ∀ message,
      findById (onWgetError st downloadId message).rows downloadId
        = some { row with
                 status := Status.failed, error := some message,
                 pid := none } := by
    intro message
    show findById (updateRows st.rows downloadId _) downloadId = _
    rw [findById_updateRows, hrow]
    · rfl
    · intro r
      rfl
  by_cases hp : row.status = Status.paused
  · have hsame : (onWgetClose st downloadId code outputPath totalBytes
        bookInfo statSize now).rows = st.rows := by
      unfold onWgetClose
      rw [if_neg hcode]
      show (if (match findById st.rows downloadId with
                | some row => decide (row.status = Status.paused)
                | none => false) = true
            then _ else _ : SysState).rows = st.rows
      rw [hrow]
      simp [hp]
    refine ⟨fun _ => ?_, ?_, fun hnp => absurd hp hnp, herr⟩
    · rw [hsame, hrow]
    · rw [hsame, hrow]
      simp [hp]
  · have hfail : (onWgetClose st downloadId code outputPath totalBytes
        bookInfo statSize now).rows
          = updateRows st.rows downloadId (fun r =>
              { r with
                status := Status.failed,
                error := some ("wget exited with code " ++ exitCodeText code),
                pid := none }) := by
      unfold onWgetClose
      rw [if_neg hcode]
      show (if (match findById st.rows downloadId with
                | some row => decide (row.status = Status.paused)
                | none => false) = true
            then _ else _ : SysState).rows = _
      rw [hrow]
      simp [hp]
    have hres : findById (onWgetClose st downloadId code outputPath totalBytes
        bookInfo statSize now).rows downloadId
          = some { row with
                   status := Status.failed,
                   error := some ("wget exited with code " ++ exitCodeText code),
                   pid := none } := by
      rw [hfail, findById_updateRows, hrow]
      · rfl
      · intro r
        rfl
    refine ⟨fun h => absurd h hp, ?_, fun _ => hres, herr⟩
    rw [hres]
    simp [hp]

/-- C8 witness: non-zero exit at a concrete `downloading` row marks it
failed; the same row paused is preserved. -/
theorem exit_reconciliation_witness :
    findById (onWgetClose exStDownloading 1 (some 3) "/dl/same.zim" 1024000
        ⟨"b1", none, "same.zim"⟩ none 9).rows 1
      = some { exRowDownloading with
               status := Status.failed,
               error := some ("wget exited with code " ++ exitCodeText (some 3)),
               pid := none } :=
  (exit_reconciliation exStDownloading 1 exRowDownloading (some 3)
      "/dl/same.zim" 1024000 ⟨"b1", none, "same.zim"⟩ none 9 rfl
      (by decide)).2.2.1 (by decide)

/-! ## C4 — mirror URL selection -/

theorem head?_insertByPri (x : String × Int) :
    ∀ l : List (String × Int),
      (insertByPri x l).head?
        = some (match l with
                | [] => x
                | y :: _ => if x.2 ≤ y.2 then x else y)
  | [] => rfl
  | y :: ys => by
      unfold insertByPri
      by_cases h : x.2 ≤ y.2 <;> simp [h]

theorem head?_sortByPri : ∀ l : List (String × Int),
    (sortByPri l).head? = firstMinBy l
  | [] => rfl
  | x :: xs => by
      have ih := head?_sortByPri xs
      unfold sortByPri firstMinBy
      rw [head?_insertByPri]
      cases h : sortByPri xs with
      | nil =>
        rw [h] at ih
        simp at ih
        rw [← ih]
      | cons y ys =>
        rw [h] at ih
        simp at ih
        rw [← ih]
        by_cases hxy : x.2 ≤ y.2 <;> simp [hxy]

theorem firstMinBy_eq_none (l : List (String × Int)) :
    firstMinBy l = none ↔ l = [] := by
  cases l with
  | nil => simp [firstMinBy]
  | cons x xs =>
    simp only [firstMinBy]
    cases firstMinBy xs with
    | none => simp
    | some m => by_cases h : x.2 ≤ m.2 <;> simp [h]

theorem firstMinBy_mem_le :
    ∀ (l : List (String × Int)) (m : String × Int), firstMinBy l = some m →
      m ∈ l ∧ ∀ v ∈ l, m.2 ≤ v.2
  | [], m, h => by simp [firstMinBy] at h
  | x :: xs, m, h => by
      rw [firstMinBy] at h
      cases hx : firstMinBy xs with
      | none =>
        rw [hx] at h
        have hxs : xs = [] := (firstMinBy_eq_none xs).mp hx
        subst hxs
        simp at h
        subst h
        simp
      | some m' =>
        rw [hx] at h
        obtain ⟨hmem, hle⟩ := firstMinBy_mem_le xs m' hx
        by_cases hc : x.2 ≤ m'.2
        · simp [hc] at h
          subst h
          refine ⟨List.mem_cons_self _ _, fun v hv => ?_⟩
          rcases List.mem_cons.mp hv with hv | hv
          · subst hv
            exact le_refl _
          · exact le_trans hc (hle v hv)
        · simp [hc] at h
          subst h
          refine ⟨List.mem_cons_of_mem _ hmem, fun v hv => ?_⟩
          rcases List.mem_cons.mp hv with hv | hv
          · subst hv
            exact le_of_not_le hc
          · exact hle v hv

/-- C4 counterexample: a URL lacking a priority attribute does *not* sort
last — the code defaults it to priority 99, so against a URL with declared
priority 100 the priority-less URL wins, while the spec's rule (missing
priority sorts last) would pick the declared one. -/
theorem selectUrl_missing_priority_not_last_cex :
    selectUrl (.multi [.tagged "http://a" (some 100), .tagged "http://b" none])
      = some "http://b"
    ∧ specSelectUrl (.multi [.tagged "http://a" (some 100), .tagged "http://b" none])
      = some "http://a" :=
  ⟨rfl, rfl⟩

/-- C4 amended: a single URL (bare string, one-object form, or one-element
array) is returned unchanged; an array is sorted ascending by priority with
a missing priority defaulting to 99 — so it sorts after declared priorities
below 99 but *before* declared priorities above 99, not last — and the
first element is returned, which is exactly the first element attaining the
minimal effective priority (JavaScript's sort is stable).  Priorities
[3, 1, 2] select the priority-1 URL; all-missing priorities select the
first URL encountered. -/
theorem selectUrl_amended :
    (∀ s, selectUrl (.single s) = some s)
    ∧ (∀ t, selectUrl (.obj t) = some t)
    ∧ (∀ s p, selectUrl (.multi [.tagged s p]) = some s)
    ∧ (∀ entries, selectUrl (.multi entries)
        = (firstMinBy (entries.map (fun u => (entryUrl u, entryPri u)))).map
            Prod.fst)
    ∧ (∀ entries url, selectUrl (.multi entries) = some url →
        ∃ e ∈ entries, entryUrl e = url
          ∧ ∀ v ∈ entries, entryPri e ≤ entryPri v)
    ∧ selectUrl (.multi [.tagged "a" (some 3), .tagged "b" (some 1),
        .tagged "c" (some 2)]) = some "b"
    ∧ selectUrl (.multi [.tagged "a" none, .tagged "b" none, .tagged "c" none])
        = some "a" := by
  have hmulti : ∀ entries, selectUrl (.multi entries)
      = (firstMinBy (entries.map (fun u => (entryUrl u, entryPri u)))).map
          Prod.fst := by
    intro entries
    simp only [selectUrl]
    rw [head?_sortByPri]
  refine ⟨fun s => rfl, fun t => rfl, fun s p => ?_, hmulti,
    fun entries url hsel => ?_, rfl, rfl⟩
  · rw [hmulti]
    cases p <;> rfl
  · rw [hmulti entries] at hsel
    cases hmin : firstMinBy (entries.map (fun u => (entryUrl u, entryPri u))) with
    | none => rw [hmin] at hsel; simp at hsel
    | some m =>
      rw [hmin] at hsel
      simp at hsel
      obtain ⟨hmem, hle⟩ := firstMinBy_mem_le _ m hmin
      obtain ⟨e, he, hem⟩ := List.mem_map.mp hmem
      refine ⟨e, he, ?_, fun v hv => ?_⟩
      · rw [← hsel, ← hem]
      · have hv2 := hle (entryUrl v, entryPri v) (List.mem_map_of_mem _ hv)
        rw [← hem] at hv2
        exact hv2


/-- C4 amended, witness for the minimality conjunct at the [3, 1, 2]
example. -/
theorem selectUrl_amended_witness :
    ∃ e ∈ [UrlEntry.tagged "a" (some 3), UrlEntry.tagged "b" (some 1),
        UrlEntry.tagged "c" (some 2)], entryUrl e = "b"
      ∧ ∀ v ∈ [UrlEntry.tagged "a" (some 3), UrlEntry.tagged "b" (some 1),
          UrlEntry.tagged "c" (some 2)], entryPri e ≤ entryPri v :=
  selectUrl_amended.2.2.2.2.1
    [UrlEntry.tagged "a" (some 3), UrlEntry.tagged "b" (some 1),
      UrlEntry.tagged "c" (some 2)] "b" rfl

/-! ## C2 — what counts as an active transfer for duplicate rejection -/

/-- C2 counterexample: for book `b1` the store holds a `paused` row whose
live process handle is still registered — by the claim this is an active
transfer and `startDownload` must reject it — yet `startDownload` succeeds,
flips the row back to `downloading` and spawns a second process (the spawn
counter increments) over the still-stopped first one. -/
theorem startDownload_paused_active_not_rejected_cex :
    exStPaused.handles.contains 1 = true
    ∧ (findById exStPaused.rows 1).map DownloadRow.status = some Status.paused
    ∧ (match startDownload exEnv exStPaused "b1" with
       | .ok (st', record) => some (st'.spawnCount, record.status)
       | .error _ => none)
      = some (2, Status.downloading) :=
  ⟨rfl, rfl, rfl⟩

/-- C2 amended: once the book exists, has a url, passes the admission check
and its meta4 resolves, `startDownload` rejects with the already-in-progress
error exactly when the persisted row for the bookId has status
`downloading`; the registered live handle is never consulted, so a `paused`
download with a registered handle is not rejected, and every non-rejected
call spawns one more process. -/
theorem startDownload_reject_iff_downloading (env : Env) (st : SysState)
    (bookId : String) (book : CatalogBook)
    (meta4Url downloadUrl fileName : String)
    (hb : getBookById env bookId = some book)
    (hu : book.url = some meta4Url)
    (hs : hasEnoughSpace env.available (book.size.getD 0 * 1024) = true)
    (hr : env.resolve meta4Url = some (downloadUrl, fileName)) :
    (startDownload env st bookId = .error (.alreadyInProgress bookId)
      ↔ ∃ r, findByBookId st.rows bookId = some r
          ∧ r.status = Status.downloading)
    ∧ (∀ st' record, startDownload env st bookId = .ok (st', record) →
        st'.spawnCount = st.spawnCount + 1) := by
  unfold startDownload
  simp only [hb, hu, hs, hr, if_true]
  cases hE : findByBookId st.rows bookId with
  | none =>
    constructor
    · simp
    · intro st' record hok
      simp only [Except.ok.injEq, Prod.mk.injEq] at hok
      rw [← hok.1]
      rfl
  | some existing =>
    dsimp only
    by_cases hd : existing.status = Status.downloading
    · rw [if_pos hd]
      constructor
      · exact ⟨fun _ => ⟨existing, rfl, hd⟩, fun _ => rfl⟩
      · intro st' record hok
        exact absurd hok (by simp)
    · rw [if_neg hd]
      constructor
      · constructor
        · intro hok
          exact absurd hok (by simp)
        · rintro ⟨r, hr1, hr2⟩
          rw [Option.some.injEq] at hr1
          subst hr1
          exact absurd hr2 hd
      · intro st' record hok
        simp only [Except.ok.injEq, Prod.mk.injEq] at hok
        rw [← hok.1]
        rfl

/-- C2 amended, witness: a row already `downloading` is rejected. -/
theorem startDownload_reject_iff_downloading_witness :
    startDownload exEnv exStDownloading "b1"
      = .error (.alreadyInProgress "b1") :=
  (startDownload_reject_iff_downloading exEnv exStDownloading "b1" exBook1
      "u1" "http://mirror-a/x.zim" "same.zim" rfl rfl (by decide) rfl).1.mpr
    ⟨exRowDownloading, rfl, rfl⟩

/-! ## Shape of a successful startDownload -/

theorem spawnWget_rows (st : SysState) (downloadId pid : Nat) :
    (spawnWget st downloadId pid).rows
      = updateRows st.rows downloadId (fun r => { r with pid := some pid }) :=
  rfl

theorem startDownload_ok_shape (env : Env) (st : SysState) (bookId : String)
    (st' : SysState) (record : DownloadRow)
    (hok : startDownload env st bookId = .ok (st', record)) :
    (∃ existing, findByBookId st.rows bookId = some existing
        ∧ st'.rows.map DownloadRow.bookId = st.rows.map DownloadRow.bookId
        ∧ st'.rows.length = st.rows.length)
    ∨ (findByBookId st.rows bookId = none
        ∧ st'.rows.map DownloadRow.bookId
            = st.rows.map DownloadRow.bookId ++ [some bookId]
        ∧ st'.rows.length = st.rows.length + 1) := by
  unfold startDownload at hok
  cases hb : getBookById env bookId with
  | none => rw [hb] at hok; exact absurd hok (by simp)
  | some book =>
    rw [hb] at hok
    dsimp only at hok
    cases hu : book.url with
    | none => rw [hu] at hok; exact absurd hok (by simp)
    | some meta4Url =>
      rw [hu] at hok
      dsimp only at hok
      by_cases hs : hasEnoughSpace env.available (book.size.getD 0 * 1024) = true
      · rw [if_pos hs] at hok
        cases hr : env.resolve meta4Url with
        | none => rw [hr] at hok; exact absurd hok (by simp)
        | some pair =>
          obtain ⟨downloadUrl, fileName⟩ := pair
          rw [hr] at hok
          dsimp only at hok
          cases hE : findByBookId st.rows bookId with
          | some existing =>
            rw [hE] at hok
            dsimp only at hok
            by_cases hd : existing.status = Status.downloading
            · rw [if_pos hd] at hok
              exact absurd hok (by simp)
            · rw [if_neg hd] at hok
              simp only [Except.ok.injEq, Prod.mk.injEq] at hok
              obtain ⟨h1, h2⟩ := hok
              subst h1
              refine Or.inl ⟨existing, rfl, ?_, ?_⟩
              · rw [spawnWget_rows, map_bookId_updateRows,
                  map_bookId_updateRows] <;> exact fun r => rfl
              · rw [spawnWget_rows, updateRows_length, updateRows_length]
          | none =>
            rw [hE] at hok
            dsimp only at hok
            simp only [Except.ok.injEq, Prod.mk.injEq] at hok
            obtain ⟨h1, h2⟩ := hok
            subst h1
            refine Or.inr ⟨rfl, ?_, ?_⟩
            · rw [spawnWget_rows, map_bookId_updateRows]
              · simp
              · exact fun r => rfl
            · rw [spawnWget_rows, updateRows_length]
              simp
      · rw [if_neg hs] at hok
        exact absurd hok (by simp)

/-! ## C5 — filePath uniqueness across the downloads store -/

/-- C5 counterexample: two different catalog books (`b1`, `b2`) whose meta4
documents declare the same file name `same.zim` are started one after the
other from an empty store; both starts succeed and leave two Download rows
with different bookIds but the *same* `filePath` — nothing in the schema
(no unique constraint on `downloads.file_path`, unlike `local_zims`) nor in
`startDownload` (which checks only by `bookId`) prevents it. -/
theorem downloads_filePath_not_unique_cex :
    (match startDownload exEnv exStEmpty "b1" with
     | .ok (st1, _) =>
       match startDownload exEnv st1 "b2" with
       | .ok (st2, _) =>
         some (st2.rows.map (fun r => (r.bookId, r.filePath)))
       | .error _ => none
     | .error _ => none)
      = some [(some "b1", some "/dl/same.zim"), (some "b2", some "/dl/same.zim")] :=
  rfl

/-- Pairwise distinctness of the `bookId` column across the store. -/
def bookIdUnique (rows : List DownloadRow) : Prop :=
  (rows.map DownloadRow.bookId).Pairwise (· ≠ ·)

/-- C5 amended: what the store does keep unique is `bookId`, not
`filePath`: `startDownload` never creates a second row for a `bookId`
already present (it reuses and updates the existing row, leaving the row
count unchanged), and pairwise-distinct bookIds are preserved; `filePath`
values may collide between different bookIds resolving to the same file
name. -/
theorem startDownload_bookId_unique (env : Env) (st : SysState)
    (bookId : String) (st' : SysState) (record : DownloadRow)
    (hok : startDownload env st bookId = .ok (st', record))
    (huniq : bookIdUnique st.rows) :
    bookIdUnique st'.rows
    ∧ (findByBookId st.rows bookId ≠ none →
        st'.rows.length = st.rows.length) := by
  rcases startDownload_ok_shape env st bookId st' record hok with
    ⟨existing, hE, hmap, hlen⟩ | ⟨hE, hmap, hlen⟩
  · constructor
    · rw [bookIdUnique, hmap]
      exact huniq
    · exact fun _ => hlen
  · refine ⟨?_, fun hne => absurd hE hne⟩
    rw [bookIdUnique, hmap, List.pairwise_append]
    refine ⟨huniq, by simp, ?_⟩
    intro a ha b hb
    simp only [List.mem_singleton] at hb
    subst hb
    obtain ⟨r, hrmem, hra⟩ := List.mem_map.mp ha
    have hnone : ∀ x ∈ st.rows, ¬x.bookId = some bookId := by
      simpa [findByBookId, List.find?_eq_none] using hE
    rw [← hra]
    exact hnone r hrmem

/-- The store after resuming `b1` from `exStPaused` via a fresh
`startDownload`. -/
def exRowResumed : DownloadRow :=
  { exRowPaused with status := .downloading, startedAt := some 5, error := none }

/-- The full state produced by `startDownload exEnv exStPaused "b1"`. -/
def exStResumed : SysState :=
  { rows := [exRowResumed], zims := [], nextId := 2, nextZimId := 1,
    handles := [1], spawnCount := 2 }

/-- C5 amended, witness: restarting `b1` over its existing paused row keeps
one row and pairwise-distinct bookIds. -/
theorem startDownload_bookId_unique_witness :
    bookIdUnique exStResumed.rows
    ∧ (findByBookId exStPaused.rows "b1" ≠ none →
        exStResumed.rows.length = exStPaused.rows.length) :=
  startDownload_bookId_unique exEnv exStPaused "b1" exStResumed exRowResumed
    rfl (by simp [bookIdUnique, exStPaused, exRowPaused])

/-! ## C10 — unknown-size books and admission -/

/-- C10: for a catalog book with `size` null (or 0), the required byte
count is 0, so with no pre-existing row `startDownload` fails with the
insufficient-space error exactly when free space is below the bare 1 GiB
margin; whenever at least 1 GiB is free the download starts and its fresh
row records `totalBytes = 0`. -/
theorem unknown_size_admission (env : Env) (st : SysState) (bookId : String)
    (book : CatalogBook) (meta4Url downloadUrl fileName : String)
    (hb : getBookById env bookId = some book)
    (hu : book.url = some meta4Url)
    (hsize : book.size = none ∨ book.size = some 0)
    (hr : env.resolve meta4Url = some (downloadUrl, fileName))
    (hnew : findByBookId st.rows bookId = none) :
    (startDownload env st bookId
        = .error (.insufficientSpace 0 env.available)
      ↔ env.available < 1073741824)
    ∧ (1073741824 ≤ env.available →
        ∃ st' record, startDownload env st bookId = .ok (st', record)
          ∧ record.totalBytes = some 0) := by
  have hreq : book.size.getD 0 * 1024 = 0 := by
    rcases hsize with h | h <;> simp [h]
  unfold startDownload
  rw [hb]
  dsimp only
  rw [hu]
  dsimp only
  rw [hreq]
  by_cases ha : hasEnoughSpace env.available 0 = true
  · rw [if_pos ha, hr]
    dsimp only
    rw [hnew]
    dsimp only
    have hge : 1073741824 ≤ env.available := by
      simp [hasEnoughSpace] at ha
      omega
    constructor
    · constructor
      · intro h
        exact absurd h (by simp)
      · intro h
        omega
    · intro _
      exact ⟨_, _, rfl, rfl⟩
  · rw [if_neg ha]
    have hlt : env.available < 1073741824 := by
      simp [hasEnoughSpace] at ha
      omega
    constructor
    · exact ⟨fun _ => hlt, fun _ => rfl⟩
    · intro h
      omega

/-- An unknown-size catalog book and an environment with exactly 1 GiB
free, for the C10 witness. -/
def exBookNoSize : CatalogBook :=
  { id := "bn", url := some "un", size := none, date := none }

/-- Environment for the C10 witness. -/
def exEnvNoSize : Env :=
  { catalog := [exBookNoSize], downloadFolder := "/dl",
    available := 1073741824,
    resolve := fun _ => some ("http://m/n.zim", "n.zim"), pid := 7, now := 3 }

/-- C10 witness: with exactly 1 GiB free, the unknown-size book is admitted
and its fresh row records `totalBytes = 0`. -/
theorem unknown_size_admission_witness :
    ∃ st' record,
      startDownload exEnvNoSize exStEmpty "bn" = .ok (st', record)
        ∧ record.totalBytes = some 0 :=
  (unknown_size_admission exEnvNoSize exStEmpty "bn" exBookNoSize "un"
      "http://m/n.zim" "n.zim" rfl rfl (Or.inl rfl) rfl rfl).2 (le_refl _)

/-! ## C7 — pause/resume round trip and the start fallback -/

theorem pauseDownload_rows (st : SysState) (downloadId : Nat)
    (hhandle : st.handles.contains downloadId = true) :
    (pauseDownload st downloadId).rows
      = updateRows st.rows downloadId (fun r => { r with status := Status.paused }) := by
  have hm : downloadId ∈ st.handles := by simpa using hhandle
  simp [pauseDownload, hm]

theorem pauseDownload_handles (st : SysState) (downloadId : Nat) :
    (pauseDownload st downloadId).handles = st.handles := by
  by_cases h : downloadId ∈ st.handles <;> simp [pauseDownload, h]

/-- C7: with a live handle registered, `pauseDownload` sets the row
`paused` and keeps the handle registered, and `resumeDownload` then sends
the continue signal and returns the row to `downloading` without changing
the number of rows; with no live handle but a `bookId` on the row, a
successful fallback `startDownload(bookId)` is exactly what `resumeDownload`
returns, and it reuses the existing row (row count unchanged) rather than
creating a second Download row. -/
theorem pause_resume_roundtrip (env : Env) (st : SysState) (downloadId : Nat)
    (row : DownloadRow)
    (hrow : findById st.rows downloadId = some row)
    (hhandle : st.handles.contains downloadId = true) :
    findById (pauseDownload st downloadId).rows downloadId
        = some { row with status := Status.paused }
    ∧ (pauseDownload st downloadId).handles = st.handles
    ∧ (∃ st2, resumeDownload env (pauseDownload st downloadId) downloadId = .ok st2
        ∧ findById st2.rows downloadId = some { row with status := Status.downloading }
        ∧ st2.rows.length = st.rows.length)
    ∧ (∀ stf rowf bid stf' recf,
        findById stf.rows downloadId = some rowf →
        stf.handles.contains downloadId = false →
        rowf.bookId = some bid →
        startDownload env stf bid = .ok (stf', recf) →
        resumeDownload env stf downloadId = .ok stf'
          ∧ stf'.rows.length = stf.rows.length) := by
  have hprow : findById (pauseDownload st downloadId).rows downloadId
      = some { row with status := Status.paused } := by
    rw [pauseDownload_rows st downloadId hhandle, findById_updateRows, hrow]
    · rfl
    · intro r
      rfl
  refine ⟨hprow, pauseDownload_handles st downloadId, ?_, ?_⟩
  · have hph : (pauseDownload st downloadId).handles.contains downloadId = true := by
      rw [pauseDownload_handles]
      exact hhandle
    refine ⟨{ pauseDownload st downloadId with
              rows := updateRows (pauseDownload st downloadId).rows downloadId
                (fun r => { r with status := Status.downloading }) }, ?_, ?_, ?_⟩
    · unfold resumeDownload
      rw [hprow]
      dsimp only
      rw [if_pos hph]
    · show findById (updateRows (pauseDownload st downloadId).rows downloadId _) downloadId = _
      rw [findById_updateRows, hprow]
      · rfl
      · intro r
        rfl
    · show (updateRows (pauseDownload st downloadId).rows downloadId _).length = _
      rw [updateRows_length, pauseDownload_rows st downloadId hhandle,
        updateRows_length]
  · intro stf rowf bid stf' recf hfrow hfh hfbid hok
    constructor
    · unfold resumeDownload
      rw [hfrow]
      dsimp only
      rw [if_neg (by simpa using hfh), hfbid]
      dsimp only
      rw [hok]
    · have hmem : rowf ∈ stf.rows := by
        have := List.mem_of_find?_eq_some hfrow
        exact this
      rcases startDownload_ok_shape env stf bid stf' recf hok with
        ⟨existing, _, _, hlen⟩ | ⟨hE, _, _⟩
      · exact hlen
      · have hnone : ∀ x ∈ stf.rows, ¬x.bookId = some bid := by
          simpa [findByBookId, List.find?_eq_none] using hE
        exact absurd hfbid (hnone rowf hmem)

/-- C7 witness: round trip on the concrete `downloading` row with its live
handle. -/
theorem pause_resume_roundtrip_witness :
    findById (pauseDownload exStDownloading 1).rows 1
      = some { exRowDownloading with status := Status.paused } :=
  (pause_resume_roundtrip exEnv exStDownloading 1 exRowDownloading rfl rfl).1

end ZimLib
